import Mathlib

/-
  Verification of the OpenCall video-signaling backend.

  Shallow embedding of the Go sources:
    * internal/websocket/messages.go      (MessageBuffer, ConnectionState)
    * the websocket hub/session/client    (Hub.AddClient, Hub.RemoveClient,
      Session.SendToRole, Session.BothJoined, Session.GetOtherClient,
      Session.Broadcast, Client.Close)
    * internal/handlers/websocket_handler.go (HandleWebSocket join path,
      sendSessionReady, readPump dispatch, handleOffer/Answer/ICECandidate)
    * the VideoSessionService             (HandleClientLeft, EndSession)
    * internal/repositories/video_session_repository.go (EndSession row update)

  Conventions: uuid.UUID is modelled as Nat (uuid.New() produces a fresh
  value per connection); time.Time as Nat seconds.  A Go buffered channel
  (Send, capacity 256) is modelled as a list plus a capacity bound; a
  non-blocking `select { case ch <- v: default: }` appends when the list is
  below capacity and otherwise leaves it unchanged.  `close(ch)` is
  modelled by incrementing a close counter on the owning client: in Go a
  second close of the same channel panics, so a counter reaching 2 is the
  double-close programming error.  Database-only calls (Record*Joined/Left,
  the SQL in EndSession) have no effect on the in-memory state and are
  modelled separately as pure record updates.
-/

namespace OpenCall

/-- Typed view of the JSON payloads carried by WebSocketMessage
    (messages.go: SessionReadyPayload, RTCOfferPayload, RTCAnswerPayload,
    ICECandidatePayload, plus the server-built map payloads of
    other_party_left and pong). -/
inductive Payload where
  | sessionReady (otherPartyName : String) (role : String)
  | offer (sdp : String)
  | answer (sdp : String)
  | iceCandidate (candidate : String) (sdpMid : Option String) (sdpMLineIndex : Option Int)
  | otherPartyLeft (bookingID : Nat)
  | emptyObject
deriving DecidableEq, Repr

/-- WebSocketMessage (messages.go:16-19): the `{type, payload}` envelope. -/
structure Msg where
  type : String
  payload : Payload
deriving DecidableEq, Repr

/-- Error value ErrMessageBufferFull (websocket errors file). -/
inductive BufferError where
  | messageBufferFull
deriving DecidableEq, Repr

/-- MessageBuffer (messages.go:9-13): bounded FIFO of pending envelopes. -/
structure MessageBuffer where
  messages : List Msg
  maxSize : Nat
deriving DecidableEq, Repr

/-- NewMessageBuffer (messages.go:48-53). -/
def NewMessageBuffer (maxSize : Nat) : MessageBuffer :=
  { messages := [], maxSize := maxSize }

/-- MessageBuffer.Add (messages.go:57-67): rejects when at (or beyond)
    capacity, otherwise appends.  Returns the updated buffer and the
    error value Go would return. -/
def MessageBuffer.add (mb : MessageBuffer) (msg : Msg) : MessageBuffer × Option BufferError :=
  if mb.messages.length ≥ mb.maxSize then (mb, some BufferError.messageBufferFull)
  else ({ mb with messages := mb.messages ++ [msg] }, none)

/-- MessageBuffer.Flush (messages.go:70-77): returns the buffered messages
    and resets to a fresh empty slice of the same capacity. -/
def MessageBuffer.flush (mb : MessageBuffer) : List Msg × MessageBuffer :=
  (mb.messages, { mb with messages := [] })

/-- A sequence of Adds, stopping with none as soon as one Add fails
    (so `some b` means every Add in the sequence succeeded). -/
def MessageBuffer.addAll (mb : MessageBuffer) : List Msg → Option MessageBuffer
  | [] => some mb
  | m :: rest =>
    match mb.add m with
    | (mb2, none) => mb2.addAll rest
    | (_, some _) => none

/-- ConnectionState (messages.go:96-102), flags only; the owned buffer is
    carried alongside. -/
structure ConnState where
  peerConnectionReady : Bool
  sessionReadySent : Bool
  messageBufferActive : Bool
  messageBuffer : MessageBuffer
deriving DecidableEq, Repr

/-- NewConnectionState (messages.go:105-112). -/
def NewConnectionState : ConnState :=
  { peerConnectionReady := false
    sessionReadySent := false
    messageBufferActive := true
    messageBuffer := NewMessageBuffer 100 }

/- ----------------------------------------------------------------
   Persistence-side model of EndSession (VideoSessionService.EndSession
   together with VideoSessionRepository.EndSession).
   ---------------------------------------------------------------- -/

/-- VideoSessionStatus (models file). -/
inductive VideoSessionStatus where
  | waiting
  | active
  | completed
deriving DecidableEq, Repr

/-- The fields of the persisted VideoSession row that EndSession reads or
    writes (models file: SessionStartedAt, SessionEndedAt, DurationSeconds,
    Status).  Times are seconds as Nat. -/
structure VideoSessionRow where
  bookingID : Nat
  sessionStartedAt : Option Nat
  sessionEndedAt : Option Nat
  durationSeconds : Nat
  status : VideoSessionStatus
deriving DecidableEq, Repr

/-- The duration computation in VideoSessionService.EndSession
    (service file lines 246-250): nonzero only when the row has a start
    timestamp and no end timestamp yet; then it is time.Since(start). -/
def endSessionDuration (row : VideoSessionRow) (now : Nat) : Nat :=
  if row.sessionStartedAt.isSome ∧ row.sessionEndedAt = none then
    now - row.sessionStartedAt.getD 0
  else 0

/-- VideoSessionRepository.EndSession (video_session_repository.go:161-174):
    the UPDATE sets session_ended_at, duration_seconds, status = completed
    and updated_at.  The reason argument is accepted but does not appear
    in the UPDATE statement, so it is not persisted. -/
def repoEndSession (row : VideoSessionRow) (now : Nat) (durationSeconds : Nat)
    (reason : String) : VideoSessionRow :=
  { row with
    sessionEndedAt := some now
    durationSeconds := durationSeconds
    status := VideoSessionStatus.completed }

/-- VideoSessionService.EndSession (service file lines 239-263): fetch the
    row, compute the duration, delegate the update to the repository. -/
def serviceEndSession (row : VideoSessionRow) (now : Nat) (reason : String) :
    VideoSessionRow :=
  repoEndSession row now (endSessionDuration row now) reason

/- ----------------------------------------------------------------
   In-memory state: association-list store of clients (heap: uuid id to
   client record), and the Hub map (booking id to Session).
   ---------------------------------------------------------------- -/

/-- Association-list lookup (Go map read). -/
def alGet {α : Type} : List (Nat × α) → Nat → Option α
  | [], _ => none
  | (k2, v) :: rest, k => if k2 = k then some v else alGet rest k

/-- Association-list insert/update (Go map write): replaces in place,
    appends when absent. -/
def alSet {α : Type} : List (Nat × α) → Nat → α → List (Nat × α)
  | [], k, v => [(k, v)]
  | (k2, v2) :: rest, k, v =>
    if k2 = k then (k, v) :: rest else (k2, v2) :: alSet rest k v

/-- Association-list delete (Go map delete). -/
def alErase {α : Type} (l : List (Nat × α)) (k : Nat) : List (Nat × α) :=
  l.filter (fun p => p.1 ≠ k)

/-- Client (hub file lines 13-25).  `send` models the contents of the
    buffered Send channel (capacity `sendCap`, 256 at construction);
    `sendClosed`, `doneClosed`, `connClosed` count how many times
    close(c.Send), close(c.Done) and c.Conn.Close() have run — in Go the
    second close of the same channel panics, so any count reaching 2 is
    the double-close programming error. -/
structure Client where
  id : Nat
  bookingID : Nat
  role : String
  username : String
  send : List Msg
  sendCap : Nat
  sendClosed : Nat
  doneClosed : Nat
  connClosed : Nat
  connState : ConnState
deriving DecidableEq, Repr

/-- Session (hub file lines 34-42).  Role slots hold client ids (pointer
    references into the client store).  `epoch` is a ghost tag recording
    which NewSession call created this value, standing in for Go pointer
    identity so that "the same Session lifetime" is expressible; the Go
    struct has no such field and no operation reads it. -/
structure Session where
  bookingID : Nat
  mentor : Option Nat
  user : Option Nat
  startTime : Nat
  maxDuration : Nat
  doneClosed : Nat
  epoch : Nat
deriving DecidableEq, Repr

/-- NewSession (hub file lines 52-59). -/
def NewSession (bookingID : Nat) (maxDuration : Nat) (now : Nat) (epoch : Nat) : Session :=
  { bookingID := bookingID
    mentor := none
    user := none
    startTime := now
    maxDuration := maxDuration
    doneClosed := 0
    epoch := epoch }

/-- Session.BothJoined (hub file lines 122-127). -/
def Session.bothJoined (s : Session) : Bool :=
  s.mentor.isSome && s.user.isSome

/-- Session.GetOtherClient (hub file lines 130-138). -/
def Session.getOtherClient (s : Session) (role : String) : Option Nat :=
  if role = "mentor" then s.user else s.mentor

/-- The role slot the code reads or writes for a given role: the
    `if role == "mentor"` / else split used by AddClient, RemoveClient and
    SendToRole. -/
def Session.roleSlot (s : Session) (role : String) : Option Nat :=
  if role = "mentor" then s.mentor else s.user

/-- The whole mutable state: the client heap, the Hub's sessions map
    (hub file lines 28-31), and the ghost NewSession counter feeding
    Session.epoch. -/
structure World where
  clients : List (Nat × Client)
  hub : List (Nat × Session)
  nextEpoch : Nat
deriving DecidableEq, Repr

def World.empty : World :=
  { clients := [], hub := [], nextEpoch := 0 }

def World.getClient (w : World) (ref : Nat) : Option Client :=
  alGet w.clients ref

def World.putClient (w : World) (ref : Nat) (c : Client) : World :=
  { w with clients := alSet w.clients ref c }

/-- Client.Close (hub file lines 199-203): close(c.Send); c.Conn.Close();
    close(c.Done) — unconditionally, with no guard against running twice. -/
def World.closeClient (w : World) (ref : Nat) : World :=
  match w.getClient ref with
  | none => w
  | some c =>
    w.putClient ref
      { c with
        sendClosed := c.sendClosed + 1
        connClosed := c.connClosed + 1
        doneClosed := c.doneClosed + 1 }

/-- A non-blocking send on the client's buffered Send channel:
    `select { case c.Send <- m: default: }`.  Appends when below capacity,
    otherwise drops the message.  (In Go, if the channel has already been
    closed such a send panics; the reachable executions examined below
    only enqueue onto open channels except where explicitly noted.) -/
def Client.trySend (c : Client) (m : Msg) : Client :=
  if c.send.length < c.sendCap then { c with send := c.send ++ [m] } else c

def World.clientTrySend (w : World) (ref : Nat) (m : Msg) : World :=
  match w.getClient ref with
  | none => w
  | some c => w.putClient ref (c.trySend m)

/-- Session.SendToRole (hub file lines 163-179): read the role's slot
    under the session lock, then, outside the lock, non-blocking send to
    that client if the slot was occupied. -/
def World.sessionSendToRole (w : World) (s : Session) (role : String) (m : Msg) : World :=
  match s.roleSlot role with
  | none => w
  | some ref => w.clientTrySend ref m

/-- Hub.AddClient (hub file lines 63-89): look up or create the Session
    (new sessions get maxDuration 30*60 and startTime now); if the slot
    for the client's role is occupied by a different connection instance
    (compared by ID), close the old occupant; install the client in the
    slot.  The client record is already in the store (HandleWebSocket
    constructs it before calling AddClient). -/
def World.addClient (w : World) (bookingID : Nat) (ref : Nat) (now : Nat) : World :=
  match w.getClient ref with
  | none => w
  | some c =>
    let created :=
      match alGet w.hub bookingID with
      | some s => (w, s)
      | none =>
        let s := NewSession bookingID (30 * 60) now w.nextEpoch
        ({ w with hub := alSet w.hub bookingID s, nextEpoch := w.nextEpoch + 1 }, s)
    let w1 := created.1
    let s := created.2
    if c.role = "mentor" then
      let w2 :=
        match s.mentor with
        | some old => if old ≠ ref then w1.closeClient old else w1
        | none => w1
      { w2 with hub := alSet w2.hub bookingID { s with mentor := some ref } }
    else
      let w2 :=
        match s.user with
        | some old => if old ≠ ref then w1.closeClient old else w1
        | none => w1
      { w2 with hub := alSet w2.hub bookingID { s with user := some ref } }

/-- Hub.RemoveClient (hub file lines 100-119): clear the role slot; if
    both slots are now empty, delete the session from the map. -/
def World.removeClient (w : World) (bookingID : Nat) (role : String) : World :=
  match alGet w.hub bookingID with
  | none => w
  | some s =>
    let s2 := if role = "mentor" then { s with mentor := none } else { s with user := none }
    if s2.mentor = none ∧ s2.user = none then
      { w with hub := alErase w.hub bookingID }
    else
      { w with hub := alSet w.hub bookingID s2 }

/-- One guarded session_ready delivery from sendSessionReady
    (handler file lines 123-146 and 149-172): non-blocking send of the
    envelope `{type: "session_ready", payload: {other_party_name, role}}`
    to the client at `ref`; SetSessionReadySent(true) only on a
    successful enqueue. -/
def World.trySendReady (w : World) (ref : Nat) (otherPartyName : String) (role : String) : World :=
  match w.getClient ref with
  | none => w
  | some c =>
    if c.send.length < c.sendCap then
      w.putClient ref
        { c with
          send := c.send ++ [{ type := "session_ready"
                               payload := Payload.sessionReady otherPartyName role }]
          connState := { c.connState with sessionReadySent := true } }
    else w

/-- WebSocketHandler.sendSessionReady (handler file lines 104-173).
    `newRef` is the client just registered; `auth.Role` and
    `auth.Username` equal that client's role and username.  The payload
    built for the new client is {OtherPartyName: otherClient.Username,
    Role: auth.Role} (line 127-130) and the one for the other client is
    {OtherPartyName: auth.Username, Role: otherClient.Role}
    (line 153-155): each recipient's payload carries the recipient's own
    role. -/
def World.sendSessionReady (w : World) (s : Session) (newRef : Nat) : World :=
  if !s.bothJoined then w
  else
    match w.getClient newRef with
    | none => w
    | some nc =>
      match s.getOtherClient nc.role with
      | none => w
      | some oRef =>
        match w.getClient oRef with
        | none => w
        | some oc =>
          let w1 :=
            if !nc.connState.sessionReadySent then
              w.trySendReady newRef oc.username nc.role
            else w
          match w1.getClient oRef with
          | none => w1
          | some oc1 =>
            if !oc1.connState.sessionReadySent then
              w1.trySendReady oRef nc.username oc1.role
            else w1

/-- The Client literal built in HandleWebSocket (handler file lines
    71-83): fresh uuid `cid`, Send channel of capacity 256, fresh
    ConnectionState. -/
def newClientData (cid : Nat) (bookingID : Nat) (role : String) (username : String) : Client :=
  { id := cid
    bookingID := bookingID
    role := role
    username := username
    send := []
    sendCap := 256
    sendClosed := 0
    doneClosed := 0
    connClosed := 0
    connState := NewConnectionState }

/-- The join path of HandleWebSocket (handler file lines 71-97): build the
    client, Hub.AddClient, then sendSessionReady on the returned session.
    (HandleClientJoined only writes join timestamps to the database.) -/
def World.handleJoin (w : World) (bookingID : Nat) (cid : Nat) (role : String)
    (username : String) (now : Nat) : World :=
  let w1 := w.putClient cid (newClientData cid bookingID role username)
  let w2 := w1.addClient bookingID cid now
  match alGet w2.hub bookingID with
  | none => w2
  | some s => w2.sendSessionReady s cid

/-- VideoSessionService.HandleClientLeft (service file lines 177-215):
    the database timestamp writes aside, look up the session; if the other party is
    present, non-blocking send of other_party_left and then Close it;
    EndSession only touches the persisted row; finally Hub.RemoveClient. -/
def World.handleClientLeft (w : World) (bookingID : Nat) (role : String) : World :=
  let w1 :=
    match alGet w.hub bookingID with
    | none => w
    | some s =>
      match s.getOtherClient role with
      | none => w
      | some oRef =>
        let wa := w.clientTrySend oRef
          { type := "other_party_left", payload := Payload.otherPartyLeft bookingID }
        wa.closeClient oRef
  w1.removeClient bookingID role

/-- A connection-level event: a new authenticated connection joining
    (HandleWebSocket), or a connection's readPump exiting
    (handler file lines 177-186: HandleClientLeft, then Hub.RemoveClient
    again, then Conn.Close). -/
inductive Event where
  | join (bookingID : Nat) (cid : Nat) (role : String) (username : String)
  | leave (ref : Nat)
deriving DecidableEq, Repr

def World.stepEvent (w : World) (e : Event) : World :=
  match e with
  | Event.join bookingID cid role username => w.handleJoin bookingID cid role username 0
  | Event.leave ref =>
    match w.getClient ref with
    | none => w
    | some c =>
      let w1 := w.handleClientLeft c.bookingID c.role
      let w2 := w1.removeClient c.bookingID c.role
      match w2.getClient ref with
      | none => w2
      | some c2 => w2.putClient ref { c2 with connClosed := c2.connClosed + 1 }

def World.run (w : World) (es : List Event) : World :=
  es.foldl World.stepEvent w

/- ----------------------------------------------------------------
   Signaling dispatch (readPump and the three payload handlers).
   ---------------------------------------------------------------- -/

/-- handleOfferMessage (handler file lines 250-281): discard on empty SDP,
    else relay `{type: "offer", payload}` to the opposite role, where
    otherRole is "user" unless the sender's role is "user". -/
def World.handleOfferMessage (w : World) (s : Session) (senderRole : String)
    (sdp : String) : World :=
  if sdp = "" then w
  else
    let otherRole := if senderRole = "user" then "mentor" else "user"
    w.sessionSendToRole s otherRole { type := "offer", payload := Payload.offer sdp }

/-- handleAnswerMessage (handler file lines 284-315). -/
def World.handleAnswerMessage (w : World) (s : Session) (senderRole : String)
    (sdp : String) : World :=
  if sdp = "" then w
  else
    let otherRole := if senderRole = "user" then "mentor" else "user"
    w.sessionSendToRole s otherRole { type := "answer", payload := Payload.answer sdp }

/-- handleICECandidateMessage (handler file lines 318-349). -/
def World.handleICECandidateMessage (w : World) (s : Session) (senderRole : String)
    (candidate : String) (sdpMid : Option String) (sdpMLineIndex : Option Int) : World :=
  if candidate = "" then w
  else
    let otherRole := if senderRole = "user" then "mentor" else "user"
    w.sessionSendToRole s otherRole
      { type := "ice_candidate"
        payload := Payload.iceCandidate candidate sdpMid sdpMLineIndex }

/-- A parsed inbound envelope, by the switch cases of readPump
    (handler file lines 215-243). -/
inductive Inbound where
  | offer (sdp : String)
  | answer (sdp : String)
  | iceCandidate (candidate : String) (sdpMid : Option String) (sdpMLineIndex : Option Int)
  | leaveCall
  | ping
  | unknown (t : String)
deriving DecidableEq, Repr

/-- Whether the readPump loop keeps running after the dispatched case, or
    returns (triggering the deferred teardown). -/
inductive PumpAction where
  | keepReading
  | stopReading
deriving DecidableEq, Repr

/-- One iteration of the readPump switch (handler file lines 215-243) for
    a frame already parsed into its envelope: offer/answer/ice_candidate
    dispatch to their handlers and the loop continues; leave_call returns
    from the loop; ping enqueues a pong on the sender's own queue;
    unknown types are logged and ignored. -/
def World.readPumpStep (w : World) (s : Session) (senderRef : Nat) (msg : Inbound) :
    World × PumpAction :=
  match w.getClient senderRef with
  | none => (w, PumpAction.keepReading)
  | some c =>
    match msg with
    | Inbound.offer sdp => (w.handleOfferMessage s c.role sdp, PumpAction.keepReading)
    | Inbound.answer sdp => (w.handleAnswerMessage s c.role sdp, PumpAction.keepReading)
    | Inbound.iceCandidate cand mid idx =>
      (w.handleICECandidateMessage s c.role cand mid idx, PumpAction.keepReading)
    | Inbound.leaveCall => (w, PumpAction.stopReading)
    | Inbound.ping =>
      (w.clientTrySend senderRef { type := "pong", payload := Payload.emptyObject },
       PumpAction.keepReading)
    | Inbound.unknown _ => (w, PumpAction.keepReading)

/- ----------------------------------------------------------------
   Interleaving model for the teardown paths.  HandleClientLeft reads
   the other party under the session lock (GetOtherClient) and only later,
   with no lock held, sends to and closes the client it read; Hub.AddClient
   runs atomically under the hub lock.  A thread is a list of these atomic
   steps plus one local register (the `otherParty` variable).  Restricting
   attention to these atomic blocks only removes interleavings of the real
   program, so every execution of this model is a reachable execution of
   the code.
   ---------------------------------------------------------------- -/

inductive Instr where
  /-- otherParty := hub.GetSession(b).GetOtherClient(role)
      (service file lines 186-189). -/
  | iGetOther (bookingID : Nat) (role : String)
  /-- The body of `if otherParty != nil` (service file lines 190-205):
      non-blocking send of other_party_left to the client in the register,
      then otherParty.Close(). -/
  | iNotifyCloseOther (bookingID : Nat)
  /-- hub.RemoveClient (service file line 212). -/
  | iRemoveClient (bookingID : Nat) (role : String)
  /-- hub.AddClient for an already-constructed client (handler file
      line 86), atomic under the hub lock. -/
  | iAddClient (bookingID : Nat) (ref : Nat) (now : Nat)
deriving DecidableEq, Repr

structure Thread where
  prog : List Instr
  reg : Option Nat
deriving DecidableEq, Repr

def stepThread (w : World) (t : Thread) : World × Thread :=
  match t.prog with
  | [] => (w, t)
  | i :: rest =>
    match i with
    | Instr.iGetOther b role =>
      let r := (alGet w.hub b).bind (fun s => s.getOtherClient role)
      (w, { prog := rest, reg := r })
    | Instr.iNotifyCloseOther b =>
      match t.reg with
      | none => (w, { t with prog := rest })
      | some oRef =>
        let w1 := w.clientTrySend oRef
          { type := "other_party_left", payload := Payload.otherPartyLeft b }
        (w1.closeClient oRef, { t with prog := rest })
    | Instr.iRemoveClient b role => (w.removeClient b role, { t with prog := rest })
    | Instr.iAddClient b ref now => (w.addClient b ref now, { t with prog := rest })

/-- Run one scheduling step: advance thread `i` (no-op for an index out of
    range). -/
def schedStep (w : World) (ts : List Thread) (i : Nat) : World × List Thread :=
  match ts[i]? with
  | none => (w, ts)
  | some t =>
    let r := stepThread w t
    (r.1, ts.set i r.2)

/-- Run a schedule: at each step the named thread executes its next atomic
    instruction. -/
def runSched (w : World) (ts : List Thread) (sched : List Nat) : World × List Thread :=
  sched.foldl (fun p i => schedStep p.1 p.2 i) (w, ts)

/- ----------------------------------------------------------------
   Registry-only operation sequences for the occupancy invariant.
   ---------------------------------------------------------------- -/

/-- A Hub operation as invoked by the handler layer: AddClient for a
    freshly constructed client, or RemoveClient. -/
inductive HubOp where
  | add (bookingID : Nat) (ref : Nat) (role : String) (username : String)
  | remove (bookingID : Nat) (role : String)
deriving DecidableEq, Repr

def World.applyHubOp (w : World) : HubOp → World
  | HubOp.add b ref role username =>
    (w.putClient ref (newClientData ref b role username)).addClient b ref 0
  | HubOp.remove b role => w.removeClient b role

def World.applyHubOps (w : World) (ops : List HubOp) : World :=
  ops.foldl World.applyHubOp w

/-- Decidable statement of the registry occupancy invariant: every session
    in the Hub map has at least one occupied role slot, and the map holds
    at most one session per booking identifier (no duplicate keys). -/
def World.hubInvariantHolds (w : World) : Bool :=
  w.hub.all (fun p => p.2.mentor.isSome || p.2.user.isSome) &&
    (w.hub.map Prod.fst).Nodup

/- ----------------------------------------------------------------
   Observation helpers used by the theorem statements.
   ---------------------------------------------------------------- -/

/-- Number of session_ready envelopes sitting in a client's outbound
    queue.  The model never dequeues (there is no writePump consumer in
    the traces considered), so this counts every session_ready ever
    enqueued to the connection. -/
def readyCount (c : Client) : Nat :=
  (c.send.filter (fun m => m.type = "session_ready")).length

/-- session_ready envelopes enqueued across all connections of a given
    role. -/
def World.readyCountToRole (w : World) (role : String) : Nat :=
  (w.clients.map
    (fun p => if p.2.role = role then readyCount p.2 else 0)).sum

/-- Decidable statement that no connection has ever been handed more than
    one session_ready envelope. -/
def World.readyAtMostOncePerClient (w : World) : Bool :=
  w.clients.all (fun p => readyCount p.2 ≤ 1)

/-- Freshness of join identifiers along a trace: every join uses a client
    id not yet present in the store, which is what uuid.New() guarantees
    for the per-connection Client.ID. -/
def World.goodTrace (w : World) : List Event → Bool
  | [] => true
  | e :: es =>
    (match e with
     | Event.join _ cid _ _ => (w.getClient cid).isNone
     | Event.leave _ => true) &&
    (w.stepEvent e).goodTrace es

/- ----------------------------------------------------------------
   Concrete scenarios used by the counterexamples and evaluations.
   ---------------------------------------------------------------- -/

/-- Mentor alice and user bob join appointment 7. -/
def traceBothJoin : List Event :=
  [Event.join 7 1 "mentor" "alice", Event.join 7 2 "user" "bob"]

def worldBothJoin : World := World.run World.empty traceBothJoin

/-- After both joined, bob's connection (id 2) goes away; its readPump
    teardown runs; then a different connection (id 3, carol) rejoins the
    user role while the Session is still in the registry (the mentor slot
    was never cleared, so it was not deleted). -/
def traceRejoin : List Event :=
  traceBothJoin ++ [Event.leave 2, Event.join 7 3 "user" "carol"]

def worldRejoin : World := World.run World.empty traceRejoin

/-- A persisted row for a session that was started at t=1000 and already
    carries an end timestamp (e.g. a second EndSession after a race
    between two disconnect paths). -/
def endedRow : VideoSessionRow :=
  { bookingID := 7
    sessionStartedAt := some 1000
    sessionEndedAt := some 1050
    durationSeconds := 50
    status := VideoSessionStatus.completed }

/-- Initial state of the teardown race: mentor 1 (alice) and user 2 (bob)
    are connected; a second mentor connection 3 (alex) has been
    constructed by HandleWebSocket but not yet registered. -/
def preemptStart : World :=
  worldBothJoin.putClient 3 (newClientData 3 7 "mentor" "alex")

/-- Thread 0 is bob's HandleClientLeft (read otherParty, then notify and
    close it, then RemoveClient); thread 1 is Hub.AddClient for the new
    mentor connection. -/
def preemptThreads : List Thread :=
  [ { prog := [Instr.iGetOther 7 "user", Instr.iNotifyCloseOther 7,
               Instr.iRemoveClient 7 "user"], reg := none },
    { prog := [Instr.iAddClient 7 3 0], reg := none } ]

/-- The schedule: bob's teardown reads otherParty (= mentor 1); the
    duplicate mentor registers, which closes mentor 1; bob's teardown then
    notifies and closes the client it read — mentor 1 again. -/
def preemptFinal : World := (runSched preemptStart preemptThreads [0, 1, 0, 0]).1

/- ----------------------------------------------------------------
   Invariants (Prop form) and small fixtures used by witnesses.
   ---------------------------------------------------------------- -/

/-- Every client entry's queue holds exactly one session_ready envelope
    when its SessionReadySent flag is set and none otherwise. -/
def ReadyInv (cl : List (Nat × Client)) : Prop :=
  ∀ p ∈ cl, readyCount p.2 = (if p.2.connState.sessionReadySent then 1 else 0)

/-- Every session in the Hub map has an occupied role slot, and booking
    identifiers are unique keys. -/
def HubInv (w : World) : Prop :=
  (∀ p ∈ w.hub, p.2.mentor.isSome ∨ p.2.user.isSome) ∧ (w.hub.map Prod.fst).Nodup

def msgA : Msg := { type := "offer", payload := Payload.offer "v=0 first" }

def msgB : Msg := { type := "answer", payload := Payload.answer "v=0 second" }

/-- A one-slot buffer already holding a message: at capacity. -/
def bufFullOne : MessageBuffer := { messages := [msgA], maxSize := 1 }

/-- The buffer obtained from a fresh two-slot buffer by two successful
    Adds. -/
def bufTwo : MessageBuffer := { messages := [msgA, msgB], maxSize := 2 }

/-- A persisted row whose session was never started. -/
def neverStartedRow : VideoSessionRow :=
  { bookingID := 1
    sessionStartedAt := none
    sessionEndedAt := none
    durationSeconds := 0
    status := VideoSessionStatus.waiting }

/-- A persisted row for a running session started at t=1000. -/
def activeRow : VideoSessionRow :=
  { bookingID := 2
    sessionStartedAt := some 1000
    sessionEndedAt := none
    durationSeconds := 0
    status := VideoSessionStatus.active }

def aliceClient : Client := newClientData 1 7 "mentor" "alice"

def bobClient : Client := newClientData 2 7 "user" "bob"

/-- A store holding just alice (mentor 1) and bob (user 2). -/
def pairWorld : World :=
  { clients := [(1, aliceClient), (2, bobClient)], hub := [], nextEpoch := 0 }

/-- The session pairing them. -/
def pairSession : Session :=
  { bookingID := 7
    mentor := some 1
    user := some 2
    startTime := 0
    maxDuration := 1800
    doneClosed := 0
    epoch := 0 }

/-- A client whose outbound queue can accept nothing (capacity 0), to
    exercise the queue-full drop path. -/
def chokedClient : Client :=
  { newClientData 9 7 "user" "zoe" with sendCap := 0 }

def chokedWorld : World :=
  { clients := [(9, chokedClient)], hub := [], nextEpoch := 0 }

def chokedSession : Session :=
  { bookingID := 7
    mentor := none
    user := some 9
    startTime := 0
    maxDuration := 1800
    doneClosed := 0
    epoch := 0 }

/- ----------------------------------------------------------------
   Association-list lemmas.
   ---------------------------------------------------------------- -/

theorem alGet_alSet {α : Type} (l : List (Nat × α)) (k : Nat) (v : α) (k2 : Nat) :
    alGet (alSet l k v) k2 = if k2 = k then some v else alGet l k2 := by
  induction l with
  | nil =>
    by_cases h : k2 = k
    · subst h; simp [alSet, alGet]
    · simp [alSet, alGet, h, if_neg (Ne.symm h)]
  | cons p rest ih =>
    obtain ⟨pk, pv⟩ := p
    by_cases hpk : pk = k
    · subst hpk
      by_cases h : k2 = pk
      · subst h; simp [alSet, alGet]
      · simp [alSet, alGet, h, if_neg (Ne.symm h)]
    · by_cases h2 : pk = k2
      · subst h2
        simp [alSet, alGet, hpk, if_neg (fun hh : pk = k => hpk hh)]
      · simp [alSet, alGet, hpk, if_neg h2, ih]

theorem mem_alSet {α : Type} (l : List (Nat × α)) (k : Nat) (v : α) (p : Nat × α) :
    p ∈ alSet l k v → p = (k, v) ∨ p ∈ l := by
  induction l with
  | nil => simp [alSet]
  | cons q rest ih =>
    obtain ⟨qk, qv⟩ := q
    by_cases hqk : qk = k
    · subst hqk
      simp [alSet]
      rintro (h | h)
      · exact Or.inl h
      · exact Or.inr (Or.inr h)
    · simp [alSet, hqk]
      rintro (h | h)
      · exact Or.inr (Or.inl h)
      · rcases ih h with h2 | h2
        · exact Or.inl h2
        · exact Or.inr (Or.inr h2)

theorem alGet_mem {α : Type} (l : List (Nat × α)) (k : Nat) (v : α) :
    alGet l k = some v → (k, v) ∈ l := by
  induction l with
  | nil => simp [alGet]
  | cons q rest ih =>
    obtain ⟨qk, qv⟩ := q
    by_cases hqk : qk = k
    · subst hqk
      simp [alGet]
      intro h
      exact Or.inl h.symm
    · simp [alGet, hqk]
      intro h
      exact Or.inr (ih h)

theorem alSet_alSet_same {α : Type} (l : List (Nat × α)) (k : Nat) (v v2 : α) :
    alSet (alSet l k v) k v2 = alSet l k v2 := by
  induction l with
  | nil => simp [alSet]
  | cons q rest ih =>
    obtain ⟨qk, qv⟩ := q
    by_cases hqk : qk = k
    · simp [alSet, hqk]
    · simp [alSet, hqk, ih]

theorem keys_alSet_subset {α : Type} (l : List (Nat × α)) (k : Nat) (v : α) (a : Nat) :
    a ∈ (alSet l k v).map Prod.fst → a = k ∨ a ∈ l.map Prod.fst := by
  intro h
  rcases List.mem_map.1 h with ⟨p, hp, hpa⟩
  rcases mem_alSet l k v p hp with h2 | h2
  · left
    rw [h2] at hpa
    exact hpa.symm
  · right
    exact List.mem_map.2 ⟨p, h2, hpa⟩

theorem nodup_keys_alSet {α : Type} (l : List (Nat × α)) (k : Nat) (v : α) :
    (l.map Prod.fst).Nodup → ((alSet l k v).map Prod.fst).Nodup := by
  induction l with
  | nil => simp [alSet]
  | cons q rest ih =>
    obtain ⟨qk, qv⟩ := q
    intro h
    rw [List.map_cons, List.nodup_cons] at h
    by_cases hqk : qk = k
    · subst hqk
      simpa [alSet, List.nodup_cons] using h
    · rw [show alSet ((qk, qv) :: rest) k v = (qk, qv) :: alSet rest k v from by
        simp [alSet, hqk]]
      rw [List.map_cons, List.nodup_cons]
      refine ⟨?_, ih h.2⟩
      intro hmem
      rcases keys_alSet_subset rest k v qk hmem with h2 | h2
      · exact hqk h2
      · exact h.1 h2

theorem nodup_keys_alErase {α : Type} (l : List (Nat × α)) (k : Nat) :
    (l.map Prod.fst).Nodup → ((alErase l k).map Prod.fst).Nodup := by
  intro h
  exact ((List.filter_sublist l).map Prod.fst).nodup h

theorem alSet_self {α : Type} (l : List (Nat × α)) (k : Nat) (v : α) :
    alGet l k = some v → alSet l k v = l := by
  induction l with
  | nil => simp [alGet]
  | cons q rest ih =>
    obtain ⟨qk, qv⟩ := q
    by_cases hqk : qk = k
    · subst hqk
      simp [alGet, alSet]
      intro h
      exact h.symm
    · simp [alGet, alSet, hqk]
      intro h
      exact ih h

theorem getClient_putClient (w : World) (r : Nat) (c : Client) (r2 : Nat) :
    (w.putClient r c).getClient r2 = if r2 = r then some c else w.getClient r2 := by
  simp [World.putClient, World.getClient, alGet_alSet]

/- ----------------------------------------------------------------
   C6 — MessageBuffer Add/Flush.
   ---------------------------------------------------------------- -/

theorem messageBuffer_addAll_spec (ms : List Msg) :
    ∀ (mb b : MessageBuffer), mb.addAll ms = some b →
      b.messages = mb.messages ++ ms ∧ b.maxSize = mb.maxSize := by
  induction ms with
  | nil =>
    intro mb b h
    simp [MessageBuffer.addAll] at h
    subst h
    simp
  | cons m rest ih =>
    intro mb b h
    by_cases hc : mb.messages.length ≥ mb.maxSize
    · simp [MessageBuffer.addAll, MessageBuffer.add, hc] at h
    · simp [MessageBuffer.addAll, MessageBuffer.add, hc] at h
      rcases ih _ _ h with ⟨h1, h2⟩
      exact ⟨by rw [h1]; simp, h2⟩

/-- C6: Add on a buffer at capacity returns the buffer-full error and
    leaves the contents unchanged; starting from an empty buffer (fresh or
    just flushed), after any sequence of successful Adds, Flush returns
    exactly the added messages in insertion order and resets the buffer to
    a fresh empty buffer of the same capacity, which backs subsequent
    Adds. -/
theorem messageBuffer_add_flush
    (mbFull mbStart b : MessageBuffer) (msg : Msg) (ms : List Msg) :
    (mbFull.messages.length = mbFull.maxSize →
      (mbFull.add msg).2 = some BufferError.messageBufferFull ∧
      (mbFull.add msg).1 = mbFull) ∧
    (mbStart.messages = [] → mbStart.addAll ms = some b →
      b.flush.1 = ms ∧ b.flush.2 = NewMessageBuffer mbStart.maxSize) := by
  constructor
  · intro hFull
    simp [MessageBuffer.add, hFull]
  · intro hEmpty hAdd
    rcases messageBuffer_addAll_spec ms mbStart b hAdd with ⟨h1, h2⟩
    constructor
    · simp [MessageBuffer.flush, h1, hEmpty]
    · simp [MessageBuffer.flush, NewMessageBuffer]
      exact h2

/-- Witness for C6 at a one-slot full buffer and a two-element add
    sequence. -/
theorem messageBuffer_add_flush_witness :
    ((bufFullOne.add msgB).2 = some BufferError.messageBufferFull ∧
      (bufFullOne.add msgB).1 = bufFullOne) ∧
    (bufTwo.flush.1 = [msgA, msgB] ∧ bufTwo.flush.2 = NewMessageBuffer 2) := by
  have h := messageBuffer_add_flush bufFullOne (NewMessageBuffer 2) bufTwo msgB [msgA, msgB]
  exact ⟨h.1 (by decide), h.2 (by decide) (by decide)⟩

/- ----------------------------------------------------------------
   C9 — EndSession duration.
   ---------------------------------------------------------------- -/

/-- C9 counterexample: a row whose session was started (at t=1000) but
    already carries an end timestamp gets persisted duration 0, so the
    duration is not zero exactly when the session was never started. -/
theorem endSession_duration_zero_despite_started :
    endSessionDuration endedRow 1100 = 0 ∧
    endedRow.sessionStartedAt = some 1000 ∧
    (serviceEndSession endedRow 1100 "party_left").durationSeconds = 0 := by
  decide

/-- C9 amended: EndSession persists the record as completed with an end
    timestamp and with duration equal to now minus the recorded start time
    when the session was started and not yet marked ended, and zero
    otherwise (never started, or already carrying an end timestamp); the
    termination reason argument does not influence the persisted row. -/
theorem endSession_completes_with_guarded_duration
    (row rowNever rowStarted rowEnded : VideoSessionRow)
    (now nowN nowS nowE t u : Nat) (reason1 reason2 : String) :
    (serviceEndSession row now reason1 =
      { row with
        sessionEndedAt := some now
        durationSeconds := endSessionDuration row now
        status := VideoSessionStatus.completed }) ∧
    serviceEndSession row now reason1 = serviceEndSession row now reason2 ∧
    (rowNever.sessionStartedAt = none → endSessionDuration rowNever nowN = 0) ∧
    (rowStarted.sessionStartedAt = some t → rowStarted.sessionEndedAt = none →
      endSessionDuration rowStarted nowS = nowS - t) ∧
    (rowEnded.sessionEndedAt = some u → endSessionDuration rowEnded nowE = 0) := by
  refine ⟨rfl, rfl, ?_, ?_, ?_⟩
  · intro h
    simp [endSessionDuration, h]
  · intro h1 h2
    simp [endSessionDuration, h1, h2]
  · intro h
    simp [endSessionDuration, h]

/-- Witness for C9's amended statement on concrete rows. -/
theorem endSession_guarded_duration_witness :
    (serviceEndSession activeRow 1100 "party_left" =
      { activeRow with
        sessionEndedAt := some 1100
        durationSeconds := endSessionDuration activeRow 1100
        status := VideoSessionStatus.completed }) ∧
    serviceEndSession activeRow 1100 "party_left" =
      serviceEndSession activeRow 1100 "time_limit_reached" ∧
    endSessionDuration neverStartedRow 50 = 0 ∧
    endSessionDuration activeRow 1100 = 1100 - 1000 ∧
    endSessionDuration endedRow 1100 = 0 := by
  have h := endSession_completes_with_guarded_duration activeRow neverStartedRow activeRow
    endedRow 1100 50 1100 1100 1000 1050 "party_left" "time_limit_reached"
  exact ⟨h.1, h.2.1, h.2.2.1 (by decide), h.2.2.2.1 (by decide) (by decide),
    h.2.2.2.2 (by decide)⟩

/- ----------------------------------------------------------------
   C8 — empty mandatory fields are discarded without teardown.
   ---------------------------------------------------------------- -/

/-- C8: an offer or answer with empty SDP, or an ice_candidate with empty
    candidate string, leaves the whole world unchanged (nothing is relayed
    to anyone, the frame is discarded) and the readPump keeps reading (the
    sender's connection is not torn down). -/
theorem empty_payload_discarded (w : World) (s : Session) (ref : Nat)
    (mid : Option String) (idx : Option Int) :
    w.readPumpStep s ref (Inbound.offer "") = (w, PumpAction.keepReading) ∧
    w.readPumpStep s ref (Inbound.answer "") = (w, PumpAction.keepReading) ∧
    w.readPumpStep s ref (Inbound.iceCandidate "" mid idx) = (w, PumpAction.keepReading) := by
  unfold World.readPumpStep
  cases h : w.getClient ref with
  | none => simp
  | some c =>
    simp [World.handleOfferMessage, World.handleAnswerMessage,
      World.handleICECandidateMessage]

/- ----------------------------------------------------------------
   C1 — content of the session_ready payloads.
   ---------------------------------------------------------------- -/

/-- C1 counterexample: mentor alice (id 1) and user bob (id 2) join
    appointment 7.  Bob's session_ready carries alice's name but role
    "user" (bob's own role), not role "mentor" as the claim requires;
    symmetrically alice's notice carries role "mentor", not "user". -/
theorem sessionReady_role_claim_false :
    (worldBothJoin.getClient 2).map Client.send =
      some [{ type := "session_ready", payload := Payload.sessionReady "alice" "user" }] ∧
    (worldBothJoin.getClient 1).map Client.send =
      some [{ type := "session_ready", payload := Payload.sessionReady "bob" "mentor" }] ∧
    (worldBothJoin.getClient 2).map Client.send ≠
      some [{ type := "session_ready", payload := Payload.sessionReady "alice" "mentor" }] ∧
    (worldBothJoin.getClient 1).map Client.send ≠
      some [{ type := "session_ready", payload := Payload.sessionReady "bob" "user" }] := by
  decide

/- ----------------------------------------------------------------
   C2 — session_ready delivered again after a rejoin.
   ---------------------------------------------------------------- -/

/-- C2 counterexample: after mentor alice and user bob join appointment 7,
    bob's connection tears down and a different connection (carol, id 3)
    rejoins the user role while the same Session (the only one ever
    created: nextEpoch = 1, epoch 0 still in the registry) is present.
    Role "user" has then been handed session_ready twice in one Session
    lifetime — once on connection 2 and once on connection 3. -/
theorem sessionReady_resent_after_rejoin :
    worldRejoin.nextEpoch = 1 ∧
    (alGet worldRejoin.hub 7).map Session.epoch = some 0 ∧
    (alGet worldRejoin.hub 7).map Session.user = some (some 3) ∧
    worldRejoin.readyCountToRole "user" = 2 ∧
    (worldRejoin.getClient 2).map readyCount = some 1 ∧
    (worldRejoin.getClient 3).map readyCount = some 1 := by
  decide

/- ----------------------------------------------------------------
   C3 — double close of a Client's one-shot channels.
   ---------------------------------------------------------------- -/

/-- C3: in the interleaving where bob's departure handler reads
    otherParty = mentor 1 (service file line 189), a duplicate mentor
    connection then registers and Hub.AddClient closes mentor 1
    (hub file lines 75-77), and bob's handler then notifies and closes the
    client it read (service file lines 198-204), Client.Close runs twice
    on mentor 1: both close(Send) and close(Done) execute twice, which in
    Go panics on the second close.  The claim that no reachable execution
    closes a one-shot channel twice is therefore violated by the code. -/
theorem double_close_interleaving_eval :
    (preemptFinal.getClient 1).map (fun c => (c.sendClosed, c.doneClosed)) =
      some (2, 2) := by
  decide

theorem trySendReady_send (w : World) (ref : Nat) (c : Client) (n r : String)
    (h : w.getClient ref = some c) (hs : c.send.length < c.sendCap) :
    w.trySendReady ref n r =
      w.putClient ref
        { c with
          send := c.send ++ [{ type := "session_ready", payload := Payload.sessionReady n r }]
          connState := { c.connState with sessionReadySent := true } } := by
  simp [World.trySendReady, h, hs]

/-- C1 amended: when both parties are present and neither connection has
    had its ready notice yet (queues not full), sendSessionReady enqueues
    to each party a session_ready carrying the opposite party's display
    name together with the recipient's own role — not the opposite
    party's role. -/
theorem sessionReady_payload_carries_own_role
    (w : World) (s : Session) (nRef oRef : Nat) (nc oc : Client)
    (hb : s.bothJoined = true)
    (hn : w.getClient nRef = some nc)
    (hother : s.getOtherClient nc.role = some oRef)
    (hne : oRef ≠ nRef)
    (ho : w.getClient oRef = some oc)
    (hfn : nc.connState.sessionReadySent = false)
    (hfo : oc.connState.sessionReadySent = false)
    (hsn : nc.send.length < nc.sendCap)
    (hso : oc.send.length < oc.sendCap) :
    ((w.sendSessionReady s nRef).getClient nRef).map Client.send =
      some (nc.send ++ [{ type := "session_ready"
                          payload := Payload.sessionReady oc.username nc.role }]) ∧
    ((w.sendSessionReady s nRef).getClient oRef).map Client.send =
      some (oc.send ++ [{ type := "session_ready"
                          payload := Payload.sessionReady nc.username oc.role }]) := by
  have hstep1 : w.trySendReady nRef oc.username nc.role =
      w.putClient nRef
        { nc with
          send := nc.send ++ [{ type := "session_ready"
                                payload := Payload.sessionReady oc.username nc.role }]
          connState := { nc.connState with sessionReadySent := true } } :=
    trySendReady_send w nRef nc oc.username nc.role hn hsn
  have hw1o : (w.trySendReady nRef oc.username nc.role).getClient oRef = some oc := by
    rw [hstep1, getClient_putClient]
    simp [hne, ho]
  have hstep2 : (w.trySendReady nRef oc.username nc.role).trySendReady oRef nc.username oc.role =
      (w.trySendReady nRef oc.username nc.role).putClient oRef
        { oc with
          send := oc.send ++ [{ type := "session_ready"
                                payload := Payload.sessionReady nc.username oc.role }]
          connState := { oc.connState with sessionReadySent := true } } :=
    trySendReady_send _ oRef oc nc.username oc.role hw1o hso
  have hmain : w.sendSessionReady s nRef =
      (w.trySendReady nRef oc.username nc.role).trySendReady oRef nc.username oc.role := by
    simp only [World.sendSessionReady, hb, Bool.not_true, Bool.false_eq_true, if_false,
      hn, hother, ho, hfn, Bool.not_false, if_true, hw1o, hfo]
  rw [hmain, hstep2, hstep1]
  constructor
  · rw [getClient_putClient]
    simp [Ne.symm hne, getClient_putClient]
  · rw [getClient_putClient]
    simp

/-- Witness for C1's amended statement: bob (user, id 2) is the newly
    joined client, alice (mentor, id 1) the other party. -/
theorem sessionReady_payload_witness :
    ((pairWorld.sendSessionReady pairSession 2).getClient 2).map Client.send =
      some (bobClient.send ++ [{ type := "session_ready"
                                 payload := Payload.sessionReady "alice" "user" }]) ∧
    ((pairWorld.sendSessionReady pairSession 2).getClient 1).map Client.send =
      some (aliceClient.send ++ [{ type := "session_ready"
                                   payload := Payload.sessionReady "bob" "mentor" }]) := by
  have h := sessionReady_payload_carries_own_role pairWorld pairSession 2 1
    bobClient aliceClient (by decide) (by decide) (by decide) (by decide) (by decide)
    (by decide) (by decide) (by decide) (by decide)
  exact h

/- ----------------------------------------------------------------
   C5 — SendToRole never blocks: drop on empty slot or full queue,
   append otherwise.
   ---------------------------------------------------------------- -/

/-- C5: Session.SendToRole returns no error by construction and never
    blocks; with an empty target slot the state is completely unchanged;
    with a full target queue the state is completely unchanged (existing
    queue contents untouched, message dropped); otherwise the message is
    appended to exactly that client's queue. -/
theorem sendToRole_nonblocking
    (wE wF wO : World) (sE sF sO : Session) (roleE roleF roleO : String)
    (mE mF mO : Msg) (refF refO : Nat) (cF cO : Client) :
    (sE.roleSlot roleE = none → wE.sessionSendToRole sE roleE mE = wE) ∧
    (sF.roleSlot roleF = some refF → wF.getClient refF = some cF →
      cF.sendCap ≤ cF.send.length → wF.sessionSendToRole sF roleF mF = wF) ∧
    (sO.roleSlot roleO = some refO → wO.getClient refO = some cO →
      cO.send.length < cO.sendCap →
      wO.sessionSendToRole sO roleO mO =
        wO.putClient refO { cO with send := cO.send ++ [mO] }) := by
  refine ⟨?_, ?_, ?_⟩
  · intro hE
    simp only [World.sessionSendToRole, Session.roleSlot] at hE ⊢
    rw [hE]
  · intro hslot hget hfull
    simp only [World.sessionSendToRole, Session.roleSlot] at hslot ⊢
    rw [hslot]
    simp only [World.clientTrySend, World.getClient] at hget ⊢
    rw [hget]
    have hnot : ¬ cF.send.length < cF.sendCap := Nat.not_lt.mpr hfull
    simp only [Client.trySend, hnot, if_false]
    cases wF with
    | mk clients hub nextEpoch =>
      simp only [World.putClient]
      rw [alSet_self clients refF cF hget]
  · intro hslot hget hspace
    simp only [World.sessionSendToRole, Session.roleSlot] at hslot ⊢
    rw [hslot]
    simp only [World.clientTrySend, World.getClient] at hget ⊢
    rw [hget]
    simp [Client.trySend, hspace]

/-- Witness for C5: empty user slot in an otherwise empty world; a
    capacity-0 client (queue permanently full) for the drop case; bob's
    fresh queue for the append case. -/
theorem sendToRole_nonblocking_witness :
    (World.empty.sessionSendToRole
      { pairSession with user := none } "user" msgA = World.empty) ∧
    (chokedWorld.sessionSendToRole chokedSession "user" msgA = chokedWorld) ∧
    (pairWorld.sessionSendToRole pairSession "user" msgA =
      pairWorld.putClient 2 { bobClient with send := bobClient.send ++ [msgA] }) := by
  have h := sendToRole_nonblocking World.empty chokedWorld pairWorld
    { pairSession with user := none } chokedSession pairSession
    "user" "user" "user" msgA msgA msgA 9 2 chokedClient bobClient
  exact ⟨h.1 (by decide), h.2.1 (by decide) (by decide) (by decide),
    h.2.2 (by decide) (by decide) (by decide)⟩

/- ----------------------------------------------------------------
   C4 — duplicate-connection preemption in Hub.AddClient.
   ---------------------------------------------------------------- -/

theorem hub_closeClient (w : World) (ref : Nat) : (w.closeClient ref).hub = w.hub := by
  unfold World.closeClient
  cases h : w.getClient ref <;> rfl

theorem nextEpoch_closeClient (w : World) (ref : Nat) :
    (w.closeClient ref).nextEpoch = w.nextEpoch := by
  unfold World.closeClient
  cases h : w.getClient ref <;> rfl

/-- C4: after AddClient, the slot for the client's role holds exactly the
    newly registered client; if that slot previously held a different
    connection instance, the old occupant's one-shot channels are closed
    by the call; if it held the same connection instance, no client is
    closed and the client store is untouched. -/
theorem addClient_preemption
    (wA wB wC : World) (bA refA nowA bB refB nowB bC refC nowC oldB : Nat)
    (cA cB cC oldcB : Client) (sB sC : Session) :
    (wA.getClient refA = some cA →
      (alGet (wA.addClient bA refA nowA).hub bA).map (fun s => s.roleSlot cA.role) =
        some (some refA)) ∧
    (wB.getClient refB = some cB → alGet wB.hub bB = some sB →
      sB.roleSlot cB.role = some oldB → oldB ≠ refB →
      wB.getClient oldB = some oldcB →
      (wB.addClient bB refB nowB).getClient oldB =
        some { oldcB with
               sendClosed := oldcB.sendClosed + 1
               connClosed := oldcB.connClosed + 1
               doneClosed := oldcB.doneClosed + 1 }) ∧
    (wC.getClient refC = some cC → alGet wC.hub bC = some sC →
      sC.roleSlot cC.role = some refC →
      (wC.addClient bC refC nowC).clients = wC.clients) := by
  refine ⟨?_, ?_, ?_⟩
  · intro hA
    unfold World.addClient
    rw [hA]
    cases hh : alGet wA.hub bA with
    | none =>
      by_cases hr : cA.role = "mentor"
      · simp [hr, alGet_alSet, Session.roleSlot]
      · simp [hr, alGet_alSet, Session.roleSlot]
    | some s =>
      by_cases hr : cA.role = "mentor"
      · cases hm : s.mentor with
        | none => simp [hr, hm, alGet_alSet, Session.roleSlot]
        | some old =>
          by_cases hne : old = refA
          · simp [hr, hm, hne, alGet_alSet, Session.roleSlot]
          · simp [hr, hm, hne, alGet_alSet, Session.roleSlot, hub_closeClient]
      · cases hm : s.user with
        | none => simp [hr, hm, alGet_alSet, Session.roleSlot]
        | some old =>
          by_cases hne : old = refA
          · simp [hr, hm, hne, alGet_alSet, Session.roleSlot]
          · simp [hr, hm, hne, alGet_alSet, Session.roleSlot, hub_closeClient]
  · intro hB hhub hslot hne hold
    unfold World.addClient
    rw [hB, hhub]
    by_cases hr : cB.role = "mentor"
    · have hm : sB.mentor = some oldB := by
        simpa [Session.roleSlot, hr] using hslot
      have hnold : ¬ (oldB = refB) := hne
      simp only [hr, if_true, hm, hnold, ite_true, ne_eq, not_false_eq_true]
      show (World.closeClient wB oldB).getClient oldB = _
      simp [World.closeClient, hold, getClient_putClient]
    · have hm : sB.user = some oldB := by
        simpa [Session.roleSlot, hr] using hslot
      have hnold : ¬ (oldB = refB) := hne
      simp only [hr, if_false, hm, hnold, ite_true, ne_eq, not_false_eq_true]
      show (World.closeClient wB oldB).getClient oldB = _
      simp [World.closeClient, hold, getClient_putClient]
  · intro hC hhub hslot
    unfold World.addClient
    rw [hC, hhub]
    by_cases hr : cC.role = "mentor"
    · have hm : sC.mentor = some refC := by
        simpa [Session.roleSlot, hr] using hslot
      simp [hr, hm]
    · have hm : sC.user = some refC := by
        simpa [Session.roleSlot, hr] using hslot
      simp [hr, hm]

/-- Witness for C4: the duplicate mentor (id 3) preempts mentor 1 on
    appointment 7; registering the already-seated mentor 1 again closes
    nobody. -/
theorem addClient_preemption_witness :
    ((alGet (preemptStart.addClient 7 3 0).hub 7).map (fun s => s.roleSlot "mentor") =
      some (some 3)) ∧
    ((preemptStart.addClient 7 3 0).getClient 1 =
      (preemptStart.getClient 1).map (fun c =>
        { c with
          sendClosed := c.sendClosed + 1
          connClosed := c.connClosed + 1
          doneClosed := c.doneClosed + 1 })) ∧
    ((worldBothJoin.addClient 7 1 0).clients = worldBothJoin.clients) := by
  have h := addClient_preemption preemptStart preemptStart worldBothJoin
    7 3 0 7 3 0 7 1 0 1
    (newClientData 3 7 "mentor" "alex") (newClientData 3 7 "mentor" "alex")
    (match worldBothJoin.getClient 1 with
     | some c => c
     | none => aliceClient)
    (match preemptStart.getClient 1 with
     | some c => c
     | none => aliceClient)
    (match alGet preemptStart.hub 7 with
     | some s => s
     | none => pairSession)
    (match alGet worldBothJoin.hub 7 with
     | some s => s
     | none => pairSession)
  refine ⟨?_, ?_, ?_⟩
  · have h1 := h.1 (by decide)
    simpa using h1
  · have h2 := h.2.1 (by decide) (by decide) (by decide) (by decide) (by decide)
    rw [h2]
    decide
  · exact h.2.2 (by decide) (by decide) (by decide)

/- ----------------------------------------------------------------
   C7 — offer/answer/ice_candidate relay to the opposite role only.
   ---------------------------------------------------------------- -/

/-- C7: a well-formed offer, answer or ice_candidate from a client of
    role senderRole is relayed, with the same type and payload content, by
    appending exactly one envelope to the queue of the occupant of the
    opposite role's slot (user for a mentor sender and mentor for a user
    sender), and every other client's state — in particular the sender's
    own outbound queue, which sits in the sender's own role slot — is
    untouched. -/
theorem signaling_relay_opposite_role
    (w : World) (s : Session) (senderRole : String) (sdpOff sdpAns cand : String)
    (mid : Option String) (idx : Option Int) (oRef : Nat) (oc : Client)
    (hrole : senderRole = "mentor" ∨ senderRole = "user")
    (hslot : s.roleSlot (if senderRole = "user" then "mentor" else "user") = some oRef)
    (hget : w.getClient oRef = some oc)
    (hspace : oc.send.length < oc.sendCap) :
    (sdpOff ≠ "" →
      (w.handleOfferMessage s senderRole sdpOff).getClient oRef =
        some { oc with
               send := oc.send ++ [{ type := "offer", payload := Payload.offer sdpOff }] } ∧
      ∀ r, r ≠ oRef →
        (w.handleOfferMessage s senderRole sdpOff).getClient r = w.getClient r) ∧
    (sdpAns ≠ "" →
      (w.handleAnswerMessage s senderRole sdpAns).getClient oRef =
        some { oc with
               send := oc.send ++ [{ type := "answer", payload := Payload.answer sdpAns }] } ∧
      ∀ r, r ≠ oRef →
        (w.handleAnswerMessage s senderRole sdpAns).getClient r = w.getClient r) ∧
    (cand ≠ "" →
      (w.handleICECandidateMessage s senderRole cand mid idx).getClient oRef =
        some { oc with
               send := oc.send ++ [{ type := "ice_candidate"
                                     payload := Payload.iceCandidate cand mid idx }] } ∧
      ∀ r, r ≠ oRef →
        (w.handleICECandidateMessage s senderRole cand mid idx).getClient r =
          w.getClient r) := by
  have hrelay : ∀ (m : Msg),
      w.sessionSendToRole s (if senderRole = "user" then "mentor" else "user") m =
        w.putClient oRef { oc with send := oc.send ++ [m] } := by
    intro m
    simp only [World.sessionSendToRole, hslot, World.clientTrySend, hget,
      Client.trySend, hspace, if_true]
  refine ⟨?_, ?_, ?_⟩
  · intro hne
    rw [show w.handleOfferMessage s senderRole sdpOff =
        w.putClient oRef
          { oc with send := oc.send ++ [{ type := "offer", payload := Payload.offer sdpOff }] }
      from by simp only [World.handleOfferMessage, hne, if_false]; exact hrelay _]
    constructor
    · rw [getClient_putClient]
      simp
    · intro r hr
      rw [getClient_putClient]
      simp [hr]
  · intro hne
    rw [show w.handleAnswerMessage s senderRole sdpAns =
        w.putClient oRef
          { oc with send := oc.send ++ [{ type := "answer", payload := Payload.answer sdpAns }] }
      from by simp only [World.handleAnswerMessage, hne, if_false]; exact hrelay _]
    constructor
    · rw [getClient_putClient]
      simp
    · intro r hr
      rw [getClient_putClient]
      simp [hr]
  · intro hne
    rw [show w.handleICECandidateMessage s senderRole cand mid idx =
        w.putClient oRef
          { oc with send := oc.send ++ [{ type := "ice_candidate"
                                          payload := Payload.iceCandidate cand mid idx }] }
      from by simp only [World.handleICECandidateMessage, hne, if_false]; exact hrelay _]
    constructor
    · rw [getClient_putClient]
      simp
    · intro r hr
      rw [getClient_putClient]
      simp [hr]

/-- Witness for C7: in the joined world, a mentor offer lands only in
    bob's queue (after his session_ready), alice's state is untouched; a
    user answer lands only in alice's queue; a mentor ICE candidate lands
    only in bob's queue. -/
theorem signaling_relay_witness :
    ((worldBothJoin.handleOfferMessage pairSession "mentor" "v=0 x").getClient 2).map
        Client.send =
      some [{ type := "session_ready", payload := Payload.sessionReady "alice" "user" },
            { type := "offer", payload := Payload.offer "v=0 x" }] ∧
    (worldBothJoin.handleOfferMessage pairSession "mentor" "v=0 x").getClient 1 =
      worldBothJoin.getClient 1 ∧
    ((worldBothJoin.handleAnswerMessage pairSession "user" "v=0 y").getClient 1).map
        Client.send =
      some [{ type := "session_ready", payload := Payload.sessionReady "bob" "mentor" },
            { type := "answer", payload := Payload.answer "v=0 y" }] ∧
    (worldBothJoin.handleAnswerMessage pairSession "user" "v=0 y").getClient 2 =
      worldBothJoin.getClient 2 ∧
    ((worldBothJoin.handleICECandidateMessage pairSession "mentor" "candidate:0" none
        none).getClient 2).map Client.send =
      some [{ type := "session_ready", payload := Payload.sessionReady "alice" "user" },
            { type := "ice_candidate"
              payload := Payload.iceCandidate "candidate:0" none none }] := by
  have hm := signaling_relay_opposite_role worldBothJoin pairSession "mentor"
    "v=0 x" "unused" "candidate:0" none none 2
    (match worldBothJoin.getClient 2 with
     | some c => c
     | none => bobClient)
    (Or.inl rfl) (by decide) (by decide) (by decide)
  have hu := signaling_relay_opposite_role worldBothJoin pairSession "user"
    "unused" "v=0 y" "unused" none none 1
    (match worldBothJoin.getClient 1 with
     | some c => c
     | none => aliceClient)
    (Or.inr rfl) (by decide) (by decide) (by decide)
  refine ⟨?_, ?_, ?_, ?_, ?_⟩
  · rw [(hm.1 (by decide)).1]
    decide
  · exact (hm.1 (by decide)).2 1 (by decide)
  · rw [(hu.2.1 (by decide)).1]
    decide
  · exact (hu.2.1 (by decide)).2 2 (by decide)
  · rw [(hm.2.2 (by decide)).1]
    decide

/- ----------------------------------------------------------------
   C2 amended — the per-connection ready flag gives at-most-once
   delivery per client connection.  Invariant: a client's queue holds
   exactly one session_ready envelope when its SessionReadySent flag is
   set and none otherwise.
   ---------------------------------------------------------------- -/

theorem readyCount_of_append_other (c : Client) (m : Msg) (rest : Client)
    (h : m.type ≠ "session_ready") (hc : rest.send = c.send ++ [m]) :
    (rest.send.filter (fun m2 => m2.type = "session_ready")).length =
      readyCount c := by
  rw [hc]
  simp [readyCount, List.filter_append, h]

theorem readyCount_trySend_other (c : Client) (m : Msg) (h : m.type ≠ "session_ready") :
    readyCount (c.trySend m) = readyCount c := by
  unfold Client.trySend
  by_cases hs : c.send.length < c.sendCap
  · simp [hs, readyCount, List.filter_append, h]
  · simp [hs]

theorem connState_trySend (c : Client) (m : Msg) :
    (c.trySend m).connState = c.connState := by
  unfold Client.trySend
  by_cases hs : c.send.length < c.sendCap <;> simp [hs]

theorem ReadyInv_putClient (cl : List (Nat × Client)) (ref : Nat) (c : Client)
    (hinv : ReadyInv cl)
    (hc : readyCount c = (if c.connState.sessionReadySent then 1 else 0)) :
    ReadyInv (alSet cl ref c) := by
  intro p hp
  rcases mem_alSet cl ref c p hp with h | h
  · rw [h]
    exact hc
  · exact hinv p h

theorem ReadyInv_closeClient (w : World) (ref : Nat) (hinv : ReadyInv w.clients) :
    ReadyInv (w.closeClient ref).clients := by
  unfold World.closeClient
  cases h : w.getClient ref with
  | none => exact hinv
  | some c =>
    apply ReadyInv_putClient _ _ _ hinv
    exact hinv (ref, c) (alGet_mem _ _ _ h)

theorem ReadyInv_clientTrySend_other (w : World) (ref : Nat) (m : Msg)
    (hm : m.type ≠ "session_ready") (hinv : ReadyInv w.clients) :
    ReadyInv (w.clientTrySend ref m).clients := by
  unfold World.clientTrySend
  cases h : w.getClient ref with
  | none => exact hinv
  | some c =>
    apply ReadyInv_putClient _ _ _ hinv
    rw [readyCount_trySend_other c m hm, connState_trySend]
    exact hinv (ref, c) (alGet_mem _ _ _ h)

theorem ReadyInv_trySendReady (w : World) (ref : Nat) (n r : String)
    (hinv : ReadyInv w.clients)
    (hflag : ∀ c, w.getClient ref = some c → c.connState.sessionReadySent = false) :
    ReadyInv (w.trySendReady ref n r).clients := by
  unfold World.trySendReady
  cases h : w.getClient ref with
  | none => exact hinv
  | some c =>
    by_cases hs : c.send.length < c.sendCap
    · simp only [hs, if_true]
      apply ReadyInv_putClient _ _ _ hinv
      have h0 := hinv (ref, c) (alGet_mem _ _ _ h)
      rw [hflag c h] at h0
      simp only [if_false] at h0
      simp [readyCount, List.filter_append]
      simpa [readyCount] using h0
    · simp only [hs, if_false]
      exact hinv

theorem ReadyInv_sendSessionReady (w : World) (s : Session) (nRef : Nat)
    (hinv : ReadyInv w.clients) :
    ReadyInv (w.sendSessionReady s nRef).clients := by
  unfold World.sendSessionReady
  by_cases hb : s.bothJoined
  · simp only [hb, Bool.not_true, Bool.false_eq_true, if_false]
    cases hn : w.getClient nRef with
    | none => exact hinv
    | some nc =>
      dsimp only
      cases ho2 : s.getOtherClient nc.role with
      | none => exact hinv
      | some oRef =>
        dsimp only
        cases ho : w.getClient oRef with
        | none => exact hinv
        | some oc =>
          dsimp only
          have hw1 : ReadyInv
              ((if !nc.connState.sessionReadySent then
                  w.trySendReady nRef oc.username nc.role
                else w)).clients := by
            by_cases hf : nc.connState.sessionReadySent
            · simp only [hf, Bool.not_true, Bool.false_eq_true, if_false]
              exact hinv
            · have hf2 : nc.connState.sessionReadySent = false := by
                simpa using hf
              simp only [hf2, Bool.not_false, if_true]
              apply ReadyInv_trySendReady w nRef _ _ hinv
              intro c hc
              rw [hn] at hc
              cases hc
              exact hf2
          cases ho1 : (if !nc.connState.sessionReadySent then
              w.trySendReady nRef oc.username nc.role
            else w).getClient oRef with
          | none => exact hw1
          | some oc1 =>
            dsimp only
            by_cases hf1 : oc1.connState.sessionReadySent
            · simp only [hf1, Bool.not_true, Bool.false_eq_true, if_false]
              exact hw1
            · have hf2 : oc1.connState.sessionReadySent = false := by
                simpa using hf1
              simp only [hf2, Bool.not_false, if_true]
              apply ReadyInv_trySendReady _ oRef _ _ hw1
              intro c hc
              rw [ho1] at hc
              cases hc
              exact hf2
  · have hb2 : s.bothJoined = false := by simpa using hb
    simp only [hb2, Bool.not_false, if_true]
    exact hinv

theorem clients_removeClient (w : World) (b : Nat) (role : String) :
    (w.removeClient b role).clients = w.clients := by
  unfold World.removeClient
  cases h : alGet w.hub b with
  | none => rfl
  | some s =>
    dsimp only
    split <;> split <;> rfl

theorem ReadyInv_addClient (w : World) (b ref now : Nat) (hinv : ReadyInv w.clients) :
    ReadyInv (w.addClient b ref now).clients := by
  unfold World.addClient
  cases hc : w.getClient ref with
  | none => exact hinv
  | some c =>
    dsimp only
    cases hh : alGet w.hub b with
    | some s =>
      dsimp only
      by_cases hr : c.role = "mentor"
      · simp only [hr, if_true]
        cases hm : s.mentor with
        | none => exact hinv
        | some old =>
          dsimp only
          by_cases hne : old ≠ ref
          · rw [if_pos hne]
            exact ReadyInv_closeClient w old hinv
          · rw [if_neg hne]
            exact hinv
      · simp only [hr, if_false]
        cases hm : s.user with
        | none => exact hinv
        | some old =>
          dsimp only
          by_cases hne : old ≠ ref
          · rw [if_pos hne]
            exact ReadyInv_closeClient w old hinv
          · rw [if_neg hne]
            exact hinv
    | none =>
      dsimp only [NewSession]
      split <;> exact hinv

theorem ReadyInv_handleClientLeft (w : World) (b : Nat) (role : String)
    (hinv : ReadyInv w.clients) :
    ReadyInv (w.handleClientLeft b role).clients := by
  unfold World.handleClientLeft
  rw [clients_removeClient]
  cases hh : alGet w.hub b with
  | none => exact hinv
  | some s =>
    dsimp only
    cases ho : s.getOtherClient role with
    | none => exact hinv
    | some oRef =>
      dsimp only
      apply ReadyInv_closeClient
      apply ReadyInv_clientTrySend_other
      · intro h
        simp at h
      · exact hinv

theorem ReadyInv_handleJoin (w : World) (b cid : Nat) (role username : String) (now : Nat)
    (hinv : ReadyInv w.clients) :
    ReadyInv (w.handleJoin b cid role username now).clients := by
  unfold World.handleJoin
  dsimp only
  have h1 : ReadyInv (w.putClient cid (newClientData cid b role username)).clients := by
    apply ReadyInv_putClient _ _ _ hinv
    rfl
  have h2 : ReadyInv
      ((w.putClient cid (newClientData cid b role username)).addClient b cid now).clients :=
    ReadyInv_addClient _ b cid now h1
  cases hh : alGet ((w.putClient cid (newClientData cid b role username)).addClient
      b cid now).hub b with
  | none => exact h2
  | some s =>
    dsimp only
    exact ReadyInv_sendSessionReady _ s cid h2

theorem ReadyInv_stepEvent (w : World) (e : Event) (hinv : ReadyInv w.clients) :
    ReadyInv (w.stepEvent e).clients := by
  cases e with
  | join b cid role username =>
    exact ReadyInv_handleJoin w b cid role username 0 hinv
  | leave ref =>
    unfold World.stepEvent
    dsimp only
    cases hc : w.getClient ref with
    | none => exact hinv
    | some c =>
      dsimp only
      have h1 : ReadyInv ((w.handleClientLeft c.bookingID c.role).removeClient
          c.bookingID c.role).clients := by
        rw [clients_removeClient]
        exact ReadyInv_handleClientLeft w c.bookingID c.role hinv
      cases hc2 : ((w.handleClientLeft c.bookingID c.role).removeClient
          c.bookingID c.role).getClient ref with
      | none => exact h1
      | some c2 =>
        dsimp only
        apply ReadyInv_putClient _ _ _ h1
        exact h1 (ref, c2) (alGet_mem _ _ _ hc2)

theorem ReadyInv_run (w : World) (es : List Event) (hinv : ReadyInv w.clients) :
    ReadyInv (w.run es).clients := by
  induction es generalizing w with
  | nil => exact hinv
  | cons e rest ih =>
    exact ih (w.stepEvent e) (ReadyInv_stepEvent w e hinv)

/-- C2 counterexample shows the per-session-per-role claim fails; the
    guard that does exist is per connection.  Amended: along any trace of
    joins and departures whose join connection ids are fresh (as uuid.New
    guarantees), every client connection is handed the session_ready
    notice at most once; a different connection rejoining the same role
    gets a fresh notice because the SessionReadySent flag lives in the
    per-connection ConnectionState. -/
theorem sessionReady_at_most_once_per_connection (es : List Event)
    (hfresh : World.goodTrace World.empty es = true) :
    (World.run World.empty es).readyAtMostOncePerClient = true := by
  have hinv : ReadyInv (World.run World.empty es).clients := by
    apply ReadyInv_run
    intro p hp
    simp [World.empty] at hp
  unfold World.readyAtMostOncePerClient
  rw [List.all_eq_true]
  intro p hp
  have h := hinv p hp
  by_cases hf : p.2.connState.sessionReadySent
  · simp [hf] at h
    simp [h]
  · simp [hf] at h
    simp [h]

/-- Witness for the amended C2 statement on the rejoin trace. -/
theorem sessionReady_at_most_once_witness :
    (World.run World.empty traceRejoin).readyAtMostOncePerClient = true := by
  exact sessionReady_at_most_once_per_connection traceRejoin (by decide)

/- ----------------------------------------------------------------
   C10 — registry occupancy invariant.
   ---------------------------------------------------------------- -/

theorem HubInv_preserve_set (hub0 : List (Nat × Session)) (b : Nat) (s2 : Session)
    (hocc : ∀ p ∈ hub0, p.2.mentor.isSome ∨ p.2.user.isSome)
    (hnd : (hub0.map Prod.fst).Nodup)
    (hs2 : s2.mentor.isSome ∨ s2.user.isSome) :
    (∀ p ∈ alSet hub0 b s2, p.2.mentor.isSome ∨ p.2.user.isSome) ∧
      ((alSet hub0 b s2).map Prod.fst).Nodup := by
  constructor
  · intro p hp
    rcases mem_alSet hub0 b s2 p hp with h | h
    · rw [h]
      exact hs2
    · exact hocc p h
  · exact nodup_keys_alSet hub0 b s2 hnd

theorem HubInv_addClient (w : World) (b ref now : Nat) (h : HubInv w) :
    HubInv (w.addClient b ref now) := by
  obtain ⟨hocc, hnd⟩ := h
  unfold World.addClient
  cases hc : w.getClient ref with
  | none => exact ⟨hocc, hnd⟩
  | some c =>
    dsimp only
    cases hh : alGet w.hub b with
    | some s =>
      dsimp only
      by_cases hr : c.role = "mentor"
      · rw [if_pos hr]
        cases hm : s.mentor with
        | none =>
          dsimp only
          exact HubInv_preserve_set w.hub b _ hocc hnd (Or.inl rfl)
        | some old =>
          dsimp only
          by_cases hne : old ≠ ref
          · rw [if_pos hne]
            unfold HubInv
            rw [hub_closeClient]
            exact HubInv_preserve_set w.hub b _ hocc hnd (Or.inl rfl)
          · rw [if_neg hne]
            exact HubInv_preserve_set w.hub b _ hocc hnd (Or.inl rfl)
      · rw [if_neg hr]
        cases hm : s.user with
        | none =>
          dsimp only
          exact HubInv_preserve_set w.hub b _ hocc hnd (Or.inr rfl)
        | some old =>
          dsimp only
          by_cases hne : old ≠ ref
          · rw [if_pos hne]
            unfold HubInv
            rw [hub_closeClient]
            exact HubInv_preserve_set w.hub b _ hocc hnd (Or.inr rfl)
          · rw [if_neg hne]
            exact HubInv_preserve_set w.hub b _ hocc hnd (Or.inr rfl)
    | none =>
      dsimp only [NewSession]
      by_cases hr : c.role = "mentor"
      · rw [if_pos hr]
        unfold HubInv
        dsimp only
        rw [alSet_alSet_same]
        exact HubInv_preserve_set w.hub b _ hocc hnd (Or.inl rfl)
      · rw [if_neg hr]
        unfold HubInv
        dsimp only
        rw [alSet_alSet_same]
        exact HubInv_preserve_set w.hub b _ hocc hnd (Or.inr rfl)

theorem HubInv_removeClient (w : World) (b : Nat) (role : String) (h : HubInv w) :
    HubInv (w.removeClient b role) := by
  obtain ⟨hocc, hnd⟩ := h
  unfold World.removeClient
  cases hh : alGet w.hub b with
  | none => exact ⟨hocc, hnd⟩
  | some s =>
    dsimp only
    by_cases hboth :
        (if role = "mentor" then { s with mentor := none } else { s with user := none }).mentor
            = none ∧
          (if role = "mentor" then { s with mentor := none } else { s with user := none }).user
            = none
    · rw [if_pos hboth]
      constructor
      · intro p hp
        exact hocc p (List.mem_of_mem_filter hp)
      · exact nodup_keys_alErase w.hub b hnd
    · rw [if_neg hboth]
      constructor
      · intro p hp
        rcases mem_alSet w.hub b _ p hp with h2 | h2
        · rw [h2]
          rcases not_and_or.mp hboth with h3 | h3
          · left
            exact Option.ne_none_iff_isSome.mp h3
          · right
            exact Option.ne_none_iff_isSome.mp h3
        · exact hocc p h2
      · exact nodup_keys_alSet w.hub b _ hnd

theorem HubInv_applyHubOp (w : World) (op : HubOp) (h : HubInv w) :
    HubInv (w.applyHubOp op) := by
  cases op with
  | add b ref role username =>
    exact HubInv_addClient (w.putClient ref (newClientData ref b role username)) b ref 0 h
  | remove b role => exact HubInv_removeClient w b role h

theorem HubInv_applyHubOps (ops : List HubOp) :
    ∀ w, HubInv w → HubInv (w.applyHubOps ops) := by
  induction ops with
  | nil =>
    intro w h
    exact h
  | cons op rest ih =>
    intro w h
    exact ih _ (HubInv_applyHubOp w op h)

/-- C10: after any sequence of Hub.AddClient and Hub.RemoveClient
    operations starting from the empty registry, every Session present in
    the registry map has at least one occupied role slot (a Session with
    both slots empty is deleted, and a freshly created Session immediately
    receives its first occupant), and the map holds at most one Session
    per booking identifier. -/
theorem hub_occupancy_invariant (ops : List HubOp) :
    (World.applyHubOps World.empty ops).hubInvariantHolds = true := by
  have h : HubInv (World.applyHubOps World.empty ops) := by
    apply HubInv_applyHubOps
    constructor
    · intro p hp
      simp [World.empty] at hp
    · simp [World.empty]
  unfold World.hubInvariantHolds
  rw [Bool.and_eq_true]
  constructor
  · rw [List.all_eq_true]
    intro p hp
    rcases h.1 p hp with h2 | h2 <;> simp [h2]
  · exact decide_eq_true h.2

end OpenCall
